import Mathlib

/-
  Verification development for doublezero-version-sync.

  Shallow embedding of the version-sync decision pipeline:
  - internal/versiondiff/versiondiff.go      (VersionDiff, IsSameVersion, Direction)
  - internal/versionsource/source.go         (parseVersionFromHTML, GetRecommendedVersion,
                                              GetRecommendedPackageVersion)
  - the doublezero package orchestrator      (SyncVersion, checkValidatorIdentity,
                                              isValidatorActive/Passive/Unknown)
  Machine integers do not occur; versions are Nat triples.  Fallible Go code
  returning (T, error) is embedded as Except String T.  External effects
  (HTTP fetch, the local version probe, the validator RPC and the
  sync_commands executor) are parameters of the embedding.
-/

namespace DZVS

/-- Decidable equality for `Except`, so concrete runs of the embedded
functions can be checked by `decide`. -/
instance {ε α : Type} [DecidableEq ε] [DecidableEq α] : DecidableEq (Except ε α) := fun x y =>
  match x, y with
  | .ok a, .ok b =>
    if h : a = b then .isTrue (by rw [h]) else .isFalse (by intro he; cases he; exact h rfl)
  | .error a, .error b =>
    if h : a = b then .isTrue (by rw [h]) else .isFalse (by intro he; cases he; exact h rfl)
  | .ok _, .error _ => .isFalse (by intro h; cases h)
  | .error _, .ok _ => .isFalse (by intro h; cases h)

/-- Model of hashicorp/go-version `version.Version` as used by this repository:
an ordered (major, minor, patch) core plus pre-release/build metadata, which
`Core()` strips and all comparisons in this codebase ignore (they always
compare `Core()`s). -/
structure GoVersion where
  major : Nat
  minor : Nat
  patch : Nat
  meta : String := ""
deriving Repr, DecidableEq

/-- `v.Core()`: the version with metadata stripped down to the three-segment core. -/
def GoVersion.core (v : GoVersion) : GoVersion :=
  { major := v.major, minor := v.minor, patch := v.patch, meta := "" }

/-- The mathematical (major, minor, patch) triple of a version. -/
def coreTriple (v : GoVersion) : Nat × Nat × Nat :=
  (v.major, v.minor, v.patch)

/-- Strict lexicographic order on core triples - the order the spec calls
"core-triple order". -/
def tripleLt (x y : Nat × Nat × Nat) : Prop :=
  x.1 < y.1 ∨ (x.1 = y.1 ∧ (x.2.1 < y.2.1 ∨ (x.2.1 = y.2.1 ∧ x.2.2 < y.2.2)))

/-- Model of go-version `Core().Compare(other.Core())`: lexicographic segment
comparison on the (major, minor, patch) core, metadata ignored. -/
def coreCompare (a b : GoVersion) : Ordering :=
  (compare a.major b.major).then ((compare a.minor b.minor).then (compare a.patch b.patch))

/-- `v.Core().String()`: the segments joined with dots, e.g. "0.7.1". -/
def coreString (v : GoVersion) : String :=
  Nat.repr v.major ++ "." ++ Nat.repr v.minor ++ "." ++ Nat.repr v.patch

/-- Go regexp `\d`: the ASCII digit class [0-9]. -/
def isDigitChar (c : Char) : Bool :=
  '0' ≤ c && c ≤ '9'

/-- Go `strings.Split` with a one-character separator, over the character
list: splitting never yields an empty group list, and splitting the empty
string yields one empty group. -/
def splitOnChar (sep : Char) : List Char → List (List Char)
  | [] => [[]]
  | c :: cs =>
    let r := splitOnChar sep cs
    if c == sep then [] :: r
    else
      match r with
      | [] => [[c]]
      | g :: gs => (c :: g) :: gs

/-- Decimal digit parsing: non-empty all-digit character sequences denote
their base-10 value, anything else fails. -/
def digitsToNat : List Char → Option Nat
  | [] => none
  | cs =>
    if cs.all isDigitChar then
      some (cs.foldl (fun n c => n * 10 + (c.toNat - Char.toNat '0')) 0)
    else none

/-- Model of go-version `version.NewVersion` restricted to the inputs this
repository feeds it: a dotted sequence of decimal segments with no
pre-release/build suffix (the resolver always strips the "-N" revision before
parsing).  Each segment must be non-empty decimal digits; missing segments
default to zero, segments beyond the third are ignored by `Core()`. -/
def parseGoVersion (s : String) : Option GoVersion :=
  let segs := (splitOnChar '.' s.data).map digitsToNat
  if segs.all Option.isSome then
    match segs.map (fun o => o.getD 0) with
    | [a] => some { major := a, minor := 0, patch := 0 }
    | [a, b] => some { major := a, minor := b, patch := 0 }
    | a :: b :: c :: _ => some { major := a, minor := b, patch := c }
    | [] => none
  else none

/-- internal/versiondiff/versiondiff.go: `VersionDiff` - a pair of optional
version endpoints (`*version.Version`, nil embedded as `none`). -/
structure VersionDiff where
  From : Option GoVersion
  To : Option GoVersion
deriving Repr, DecidableEq

/-- The spec's `Compare(from, to) -> VersionDiff`; in the source a VersionDiff
struct literal is built from the two endpoints. -/
def Compare (f t : Option GoVersion) : VersionDiff :=
  { From := f, To := t }

/-- versiondiff.go `IsSameVersion`: false if either endpoint is nil, else
`From.Core().Compare(To.Core()) == 0`. -/
def VersionDiff.IsSameVersion (v : VersionDiff) : Bool :=
  match v.From, v.To with
  | none, _ => false
  | _, none => false
  | some f, some t => coreCompare f t == Ordering.eq

/-- versiondiff.go `Direction`: "no change" when `IsSameVersion`, else
"upgrade" when `To.Core().GreaterThan(From.Core())`, else "downgrade".
When not same and an endpoint is nil the Go code dereferences a nil pointer
and panics; that state is embedded as `none`. -/
def VersionDiff.Direction (v : VersionDiff) : Option String :=
  if v.IsSameVersion then some "no change"
  else
    match v.To, v.From with
    | some t, some f =>
        some (if coreCompare t f == Ordering.gt then "upgrade" else "downgrade")
    | _, _ => none

/-
  internal/versionsource/source.go - the install-command pattern.
  Go: debianVersionPattern = `apt-get\s+install\s+doublezero\s*=\s*(\d+\.\d+\.\d+-\d+)`
  Every quantified class in the pattern is followed by a character outside the
  class, so Go's matching coincides with maximal munch, embedded below.
-/

/-- Go regexp `\s`: the ASCII whitespace class [\t\n\f\r ]. -/
def isSpaceChar (c : Char) : Bool :=
  c == ' ' || c == '\t' || c == '\n' || c == '\r' || c == '\x0c'

/-- Match a literal character sequence at the head of the input, returning the
rest of the input. -/
def matchLit : List Char → List Char → Option (List Char)
  | [], s => some s
  | _ :: _, [] => none
  | l :: ls, c :: cs => if c == l then matchLit ls cs else none

/-- Match `\s+` at the head of the input (at least one whitespace, maximal). -/
def matchSpaces1 : List Char → Option (List Char)
  | [] => none
  | c :: cs => if isSpaceChar c then some (cs.dropWhile isSpaceChar) else none

/-- Match `\s*` at the head of the input (maximal). -/
def matchSpaces0 (s : List Char) : List Char :=
  s.dropWhile isSpaceChar

/-- Match `\d+` at the head of the input (at least one digit, maximal),
returning the digits and the rest. -/
def matchDigits1 : List Char → Option (List Char × List Char)
  | [] => none
  | c :: cs =>
    if isDigitChar c then some (c :: cs.takeWhile isDigitChar, cs.dropWhile isDigitChar)
    else none

/-- Try to match the full install-command pattern anchored at the head of the
input; on success return the captured group `\d+\.\d+\.\d+-\d+` and the rest
of the input after the match. -/
def matchPatternAt (s : List Char) : Option (String × List Char) := do
  let s ← matchLit "apt-get".data s
  let s ← matchSpaces1 s
  let s ← matchLit "install".data s
  let s ← matchSpaces1 s
  let s ← matchLit "doublezero".data s
  let s := matchSpaces0 s
  let s ← matchLit "=".data s
  let s := matchSpaces0 s
  let (d1, s) ← matchDigits1 s
  let s ← matchLit ".".data s
  let (d2, s) ← matchDigits1 s
  let s ← matchLit ".".data s
  let (d3, s) ← matchDigits1 s
  let s ← matchLit "-".data s
  let (d4, s) ← matchDigits1 s
  some (String.mk d1 ++ "." ++ String.mk d2 ++ "." ++ String.mk d3 ++ "-" ++ String.mk d4, s)

/-- Scanning loop of Go `FindAllStringSubmatch(text, -1)`: leftmost,
non-overlapping matches; after a match, scanning resumes after it.  The fuel
argument bounds the recursion; every step consumes at least one character, so
fuel equal to the input length computes the exact result. -/
def findAllAux : Nat → List Char → List String
  | 0, _ => []
  | _ + 1, [] => []
  | fuel + 1, c :: rest =>
    match matchPatternAt (c :: rest) with
    | some (v, s) => v :: findAllAux fuel s
    | none => findAllAux fuel rest

/-- All captured versions of the install-command pattern in a text, in order. -/
def findAllMatches (text : String) : List String :=
  findAllAux text.data.length text.data

/-- An HTML node as produced by golang.org/x/net/html: an element with a tag
and children, or a text node.  Only the fields the resolver reads (Type, Data,
child list) are modelled; attributes, comments and the like play no role and
a text node stands for any non-element node. -/
inductive HtmlNode where
  | text : String → HtmlNode
  | elem : String → List HtmlNode → HtmlNode

/-- Whether a node is a `<code>` element. -/
def isCodeElem : HtmlNode → Bool
  | .elem "code" _ => true
  | _ => false

/-- source.go `hasCodeChild`: some direct child is a `<code>` element. -/
def hasCodeChild (cs : List HtmlNode) : Bool :=
  cs.any isCodeElem

/-- The code-block test of the traversal:
`n.Data == "code" || (n.Data == "pre" && hasCodeChild(n))`. -/
def isCodeBlock (tag : String) (cs : List HtmlNode) : Bool :=
  tag == "code" || (tag == "pre" && hasCodeChild cs)

mutual

/-- source.go `extractText`: concatenation of all text nodes in the subtree,
in depth-first document order. -/
def extractText : HtmlNode → String
  | .text s => s
  | .elem _ cs => extractTextList cs

/-- `extractText` over a child list, left to right. -/
def extractTextList : List HtmlNode → String
  | [] => ""
  | n :: ns => extractText n ++ extractTextList ns

end

/-- One step of the collection in `parseVersionFromHTML`'s traversal: append a
captured version to the accumulator when it has not been seen yet and fewer
than two versions are held (`!seen[version] && len(foundVersions) < 2`).  The
`seen` set always equals the set of collected versions, so membership stands
in for it. -/
def addOne (acc : List String) (v : String) : List String :=
  if ¬ acc.contains v ∧ acc.length < 2 then acc ++ [v] else acc

/-- Apply `addOne` to each captured version of one code block, in match order. -/
def addAll (acc : List String) (vs : List String) : List String :=
  vs.foldl addOne acc

mutual

/-- The `traverse` closure of source.go `parseVersionFromHTML`: depth-first
over the node tree; at each element that is a code block, run the pattern on
its extracted text and collect the captures (deduplicated, capped at two);
then recurse into the children. -/
def collectNode (acc : List String) : HtmlNode → List String
  | .text _ => acc
  | .elem tag cs =>
    let acc1 := if isCodeBlock tag cs then addAll acc (findAllMatches (extractTextList cs)) else acc
    collectList acc1 cs

/-- `traverse` over a child list, left to right. -/
def collectList (acc : List String) : List HtmlNode → List String
  | [] => acc
  | n :: ns => collectList (collectNode acc n) ns

end

mutual

/-- All raw captures of the install-command pattern inside code-like elements
of the tree, in document order, with no deduplication and no cap.  This is
the reference sequence the claims quantify over; `collectNode` is related to
it by `collectNode_eq_addAll`. -/
def rawNode : HtmlNode → List String
  | .text _ => []
  | .elem tag cs =>
    (if isCodeBlock tag cs then findAllMatches (extractTextList cs) else []) ++ rawList cs

/-- `rawNode` over a child list, left to right. -/
def rawList : List HtmlNode → List String
  | [] => []
  | n :: ns => rawNode n ++ rawList ns

end

/-- The hardcoded cluster-to-position binding of `parseVersionFromHTML`:
first match is Mainnet-Beta, second is Testnet, anything else is unknown. -/
def matchIndexFor (cluster : String) : Option Nat :=
  if cluster == "mainnet-beta" then some 0
  else if cluster == "testnet" then some 1
  else none

/-- Error text for zero collected matches. -/
def noPatternsMsg : String :=
  "could not find any apt-get install doublezero=X.Y.Z-N patterns in documentation"

/-- Error text for an unknown cluster name. -/
def unknownClusterMsg (cluster : String) : String :=
  "unknown cluster: " ++ cluster

/-- Error text when too few matches were collected for the cluster's position. -/
def versionNotFoundMsg (cluster : String) (found needIndex : Nat) : String :=
  "could not find version for cluster " ++ cluster ++ " (found " ++ Nat.repr found ++
    " matches, need index " ++ Nat.repr needIndex ++ ")"

/-- source.go `parseVersionFromHTML`: collect versions from code blocks, fail
when none were found, bind the (lowercased) cluster name to its fixed position,
fail when the position exceeds the collected matches, else return the match. -/
def parseVersionFromHTML (cluster : String) (doc : HtmlNode) : Except String String :=
  let foundVersions := collectNode [] doc
  if foundVersions.length = 0 then
    .error noPatternsMsg
  else
    match matchIndexFor cluster with
    | none => .error (unknownClusterMsg cluster)
    | some matchIndex =>
      if foundVersions.length ≤ matchIndex then
        .error (versionNotFoundMsg cluster foundVersions.length matchIndex)
      else
        .ok (foundVersions.getD matchIndex "")

/-- source.go `fetchVersionFromDocs`, with the external HTTP fetch replaced
by the fetched document tree: parse failures are wrapped with the fetch
context message.  Transport errors and non-200 statuses are external failures
outside the embedding. -/
def fetchVersionFromDocs (cluster : String) (doc : HtmlNode) : Except String String :=
  match parseVersionFromHTML cluster doc with
  | .error e => .error ("failed to parse version from docs: " ++ e)
  | .ok v => .ok v

/-- source.go `GetRecommendedPackageVersion`: the fetched package-version
string, passed through unchanged. -/
def GetRecommendedPackageVersion (cluster : String) (doc : HtmlNode) : Except String String :=
  fetchVersionFromDocs cluster doc

/-- Error text when the stripped package version does not parse as semver. -/
def versionParseFailedMsg (semverString packageVersion : String) : String :=
  "failed to parse recommended version " ++ semverString ++ " (from package version " ++
    packageVersion ++ ")"

/-- source.go `GetRecommendedVersion`: fetch the package version, split on "-"
and keep the first segment, parse it as a semantic version; a malformed
segment is a hard error. -/
def GetRecommendedVersion (cluster : String) (doc : HtmlNode) : Except String GoVersion :=
  match fetchVersionFromDocs cluster doc with
  | .error e => .error e
  | .ok packageVersion =>
    let semverString := String.mk ((splitOnChar '-' packageVersion.data).headD [])
    match parseGoVersion semverString with
    | none => .error (versionParseFailedMsg semverString packageVersion)
    | some v => .ok v

/-
  The doublezero package: validator identity gate, constraint gate and the
  SyncVersion orchestrator.
-/

/-- doublezero `isValidatorActive`: the reported identity equals the
configured active public key. -/
def isValidatorActive (validatorIdentity activeIdentityPK : String) : Bool :=
  validatorIdentity == activeIdentityPK

/-- doublezero `isValidatorPassive`: the reported identity equals the
configured passive public key. -/
def isValidatorPassive (validatorIdentity passiveIdentityPK : String) : Bool :=
  validatorIdentity == passiveIdentityPK

/-- doublezero `isValidatorUnknown`: the reported identity equals neither
configured key. -/
def isValidatorUnknown (validatorIdentity activeIdentityPK passiveIdentityPK : String) : Bool :=
  validatorIdentity != activeIdentityPK && validatorIdentity != passiveIdentityPK

/-- Error text for an unknown reported identity. -/
def unknownIdentityMsg (validatorIdentity activeIdentityPK passiveIdentityPK : String) : String :=
  "validator identity " ++ validatorIdentity ++ " does not match configured active (" ++
    activeIdentityPK ++ ") or passive (" ++ passiveIdentityPK ++ ") identities"

/-- Error text when sync is blocked because the validator is active. -/
def syncNotAllowedWhenActiveMsg : String :=
  "sync not allowed when validator is active (set validator.enabled_when_active=true to allow)"

/-- Error text of the defensive final branch of `checkValidatorIdentity`. -/
def unexpectedIdentityStateMsg : String :=
  "unexpected validator identity state"

/-- The classification sequence of doublezero `checkValidatorIdentity` after
the identity RPC succeeded: unknown identity is an error; active identity is
an error unless `enabled_when_active`; active with the flag set proceeds;
passive proceeds; a defensive error closes the function. -/
def checkIdentityGate (validatorIdentity activeIdentityPK passiveIdentityPK : String)
    (enabledWhenActive : Bool) : Except String Unit :=
  if isValidatorUnknown validatorIdentity activeIdentityPK passiveIdentityPK then
    .error (unknownIdentityMsg validatorIdentity activeIdentityPK passiveIdentityPK)
  else if isValidatorActive validatorIdentity activeIdentityPK && !enabledWhenActive then
    .error syncNotAllowedWhenActiveMsg
  else if isValidatorActive validatorIdentity activeIdentityPK && enabledWhenActive then
    .ok ()
  else if isValidatorPassive validatorIdentity passiveIdentityPK then
    .ok ()
  else
    .error unexpectedIdentityStateMsg

/-- doublezero `checkValidatorIdentity`: query the validator identity over
RPC (the query's outcome is a parameter of the embedding) and classify it
against the two configured public keys. -/
def checkValidatorIdentity (identityResult : Except String String)
    (activeIdentityPK passiveIdentityPK : String) (enabledWhenActive : Bool) :
    Except String Unit :=
  match identityResult with
  | .error e => .error ("failed to get validator identity: " ++ e)
  | .ok validatorIdentity =>
    checkIdentityGate validatorIdentity activeIdentityPK passiveIdentityPK enabledWhenActive

/-- A comparator of the go-version constraint language (§6 of the spec:
comma-separated comparator expressions over a three-component version). -/
inductive ConstraintOp where
  | eq
  | ne
  | gt
  | lt
  | ge
  | le
deriving Repr, DecidableEq

/-- One parsed comparator expression, e.g. ">=0.6.9". -/
structure VersionConstraint where
  op : ConstraintOp
  version : GoVersion
deriving Repr, DecidableEq

/-- Whether a comparator accepts a comparison outcome. -/
def opHolds : ConstraintOp → Ordering → Bool
  | .eq, o => o == Ordering.eq
  | .ne, o => o != Ordering.eq
  | .gt, o => o == Ordering.gt
  | .lt, o => o == Ordering.lt
  | .ge, o => o != Ordering.lt
  | .le, o => o != Ordering.gt

/-- Model of go-version `Constraints.Check` on the inputs this repository
feeds it (the target's metadata-free `Core()` against metadata-free
constraint versions): every comparator must accept the core comparison. -/
def checkConstraints (cs : List VersionConstraint) (v : GoVersion) : Bool :=
  cs.all fun c => opHolds c.op (coreCompare v c.version)

/-- Rendering of a comparator for the violation message. -/
def constraintOpString : ConstraintOp → String
  | .eq => "="
  | .ne => "!="
  | .gt => ">"
  | .lt => "<"
  | .ge => ">="
  | .le => "<="

/-- Rendering of a parsed constraint list for the violation message. -/
def constraintsString (cs : List VersionConstraint) : String :=
  String.intercalate ", " (cs.map fun c => constraintOpString c.op ++ " " ++ coreString c.version)

/-- Error text of a constraint violation in `SyncVersion`. -/
def constraintViolationMsg (target : GoVersion) (cs : List VersionConstraint) : String :=
  "target version " ++ coreString target ++ " does not satisfy doublezero.version_constraint " ++
    constraintsString cs

/-- The constraint block of `SyncVersion`: skipped when no
`doublezero.version_constraint` is configured (empty string in the source,
`none` here); otherwise the parsed constraint must accept the target's core
version or the cycle fails. -/
def constraintGate (constraint : Option (List VersionConstraint)) (target : GoVersion) :
    Except String Unit :=
  match constraint with
  | none => .ok ()
  | some cs =>
    if checkConstraints cs target then .ok ()
    else .error (constraintViolationMsg target cs)

/-- sync_commands `CommandTemplateData`: the template-data record handed to
each configured command. -/
structure CommandTemplateData where
  CommandIndex : Nat
  CommandsCount : Nat
  ClusterName : String
  VersionFrom : String
  VersionTo : String
  PackageVersionTo : String
deriving Repr, DecidableEq

/-- Modelled from the spec: a configured sync command of the external
command-execution collaborator (internal/sync_commands is not part of the
sources under verification).  Per §4.5 the orchestrator "delegates execution
to the external command-execution collaborator"; each command is its
`ExecuteWithData` behaviour, a function from the template-data record to
success or an error (allow-failure handling lives inside the collaborator). -/
def SyncCommand : Type :=
  CommandTemplateData → Except String Unit

/-- Which `return` site of `SyncVersion` produced a successful cycle; the
spec's §3 `SyncDecision` success values. -/
inductive SyncOutcome where
  | noChange
  | noCommandsConfigured
  | synced
deriving Repr, DecidableEq

/-- The cycle-scoped inputs of one `SyncVersion` call.  External collaborators
(the installed-version probe, the fetched documentation tree, the identity
RPC, the command executors) enter as values; configuration fields mirror the
DoubleZero instance: `validatorConfigured` is whether `validatorRPCClient`
was set up (RPC URL and both keypairs present), `versionConstraint` is the
parsed constraint when `doublezero.version_constraint` is non-empty. -/
structure SyncEnv where
  cluster : String
  installed : Except String GoVersion
  doc : HtmlNode
  validatorConfigured : Bool
  identityResult : Except String String
  activeIdentityPK : String
  passiveIdentityPK : String
  enabledWhenActive : Bool
  versionConstraint : Option (List VersionConstraint)
  commands : List SyncCommand

/-- Go `strings.ToLower` as applied to the cluster name in
`versionsource.New` (character-wise lowercase mapping). -/
def lowerString (s : String) : String :=
  String.mk (s.data.map Char.toLower)

/-- The identity stage of `SyncVersion`: the gate runs only when the
validator RPC client is configured. -/
def identityStage (env : SyncEnv) : Except String Unit :=
  if env.validatorConfigured then
    checkValidatorIdentity env.identityResult env.activeIdentityPK env.passiveIdentityPK
      env.enabledWhenActive
  else .ok ()

/-- The command loop of `SyncVersion`: run each command in declared order on
its template-data record; the first error aborts the sequence.  Besides the
Go return value, the list of records actually handed to `ExecuteWithData`
(the failing call included) is returned as the observable trace. -/
def execCommands : List SyncCommand → (Nat → CommandTemplateData) → Nat →
    Except String Unit × List CommandTemplateData
  | [], _, _ => (.ok (), [])
  | c :: rest, mk, i =>
    match c (mk i) with
    | .error e => (.error e, [mk i])
    | .ok _ =>
      let r := execCommands rest mk (i + 1)
      (r.1, mk i :: r.2)

/-- The template-data record `SyncVersion` builds for command `i`. -/
def mkTemplateData (env : SyncEnv) (vFrom vTo : GoVersion) (packageVersion : String)
    (commandsCount i : Nat) : CommandTemplateData :=
  { CommandIndex := i
    CommandsCount := commandsCount
    ClusterName := env.cluster
    VersionFrom := coreString vFrom
    VersionTo := coreString vTo
    PackageVersionTo := packageVersion }

/-- doublezero `SyncVersion`: refresh the installed state, resolve the
recommended semantic and package versions (the cluster name lowercased as in
`versionsource.New`), run the identity gate when configured, run the
constraint gate when configured, stop successfully on no change or on zero
configured commands, otherwise execute the commands in order.  The result is
the Go return value (with the success site made explicit) paired with the
trace of template-data records handed to commands. -/
def SyncVersion (env : SyncEnv) : Except String SyncOutcome × List CommandTemplateData :=
  match env.installed with
  | .error e => (.error ("failed to get installed DoubleZero version: " ++ e), [])
  | .ok vFrom =>
    match GetRecommendedVersion (lowerString env.cluster) env.doc with
    | .error e => (.error e, [])
    | .ok vTo =>
      match GetRecommendedPackageVersion (lowerString env.cluster) env.doc with
      | .error e => (.error e, [])
      | .ok packageVersion =>
        match identityStage env with
        | .error e => (.error e, [])
        | .ok _ =>
          match constraintGate env.versionConstraint vTo.core with
          | .error e => (.error e, [])
          | .ok _ =>
            if (Compare (some vFrom) (some vTo)).IsSameVersion then
              (.ok .noChange, [])
            else
              let commandsCount := env.commands.length
              if commandsCount = 0 then
                (.ok .noCommandsConfigured, [])
              else
                match execCommands env.commands
                    (mkTemplateData env vFrom vTo packageVersion commandsCount) 0 with
                | (.ok _, trace) => (.ok .synced, trace)
                | (.error e, trace) => (.error e, trace)

/-
  Supporting lemmas.
-/

instance (x y : Nat × Nat × Nat) : Decidable (tripleLt x y) := by
  unfold tripleLt
  infer_instance

/-- The program comparator agrees with triple equality. -/
theorem coreCompare_eq_iff (a b : GoVersion) :
    coreCompare a b = Ordering.eq ↔ coreTriple a = coreTriple b := by
  unfold coreCompare coreTriple
  cases hM : compare a.major b.major <;> cases hm : compare a.minor b.minor <;>
    cases hp : compare a.patch b.patch <;>
      simp_all [Ordering.then, Nat.compare_eq_lt, Nat.compare_eq_eq, Nat.compare_eq_gt,
        Prod.ext_iff] <;> omega

/-- The program comparator agrees with strict lexicographic triple order. -/
theorem coreCompare_gt_iff (a b : GoVersion) :
    coreCompare a b = Ordering.gt ↔ tripleLt (coreTriple b) (coreTriple a) := by
  unfold coreCompare coreTriple tripleLt
  cases hM : compare a.major b.major <;> cases hm : compare a.minor b.minor <;>
    cases hp : compare a.patch b.patch <;>
      simp_all [Ordering.then, Nat.compare_eq_lt, Nat.compare_eq_eq, Nat.compare_eq_gt] <;> omega

/-- `IsSameVersion` on two present endpoints decides triple equality. -/
theorem isSameVersion_iff (a b : GoVersion) :
    (Compare (some a) (some b)).IsSameVersion = true ↔ coreTriple a = coreTriple b := by
  rw [Compare]
  show (coreCompare a b == Ordering.eq) = true ↔ coreTriple a = coreTriple b
  cases h : coreCompare a b <;>
    simp_all [← coreCompare_eq_iff] <;> rfl

/-- One collection step never drops elements. -/
theorem addOne_length_le (acc : List String) (v : String) :
    acc.length ≤ (addOne acc v).length := by
  unfold addOne
  split <;> simp

/-- Collection never drops elements. -/
theorem addAll_length_le (acc : List String) (vs : List String) :
    acc.length ≤ (addAll acc vs).length := by
  induction vs generalizing acc with
  | nil => simp [addAll]
  | cons v vs ih =>
    have h1 : addAll acc (v :: vs) = addAll (addOne acc v) vs := by
      simp [addAll]
    rw [h1]
    exact le_trans (addOne_length_le acc v) (ih (addOne acc v))

/-- Collecting distributes over concatenation of the raw capture streams. -/
theorem addAll_append (acc : List String) (xs ys : List String) :
    addAll acc (xs ++ ys) = addAll (addAll acc xs) ys := by
  simp [addAll, List.foldl_append]

mutual

/-- The stateful traversal collects exactly the fold of the dedup-and-cap step
over the raw capture stream of the tree. -/
theorem collectNode_eq_addAll (acc : List String) (n : HtmlNode) :
    collectNode acc n = addAll acc (rawNode n) := by
  cases n with
  | text s => simp [collectNode, rawNode, addAll]
  | elem tag cs =>
    rw [collectNode, rawNode, addAll_append, collectList_eq_addAll]
    cases h : isCodeBlock tag cs <;> simp [h, addAll]

/-- List version of `collectNode_eq_addAll`. -/
theorem collectList_eq_addAll (acc : List String) (ns : List HtmlNode) :
    collectList acc ns = addAll acc (rawList ns) := by
  cases ns with
  | nil => simp [collectList, rawList, addAll]
  | cons n ns =>
    rw [collectList, rawList, addAll_append, collectNode_eq_addAll, collectList_eq_addAll]

end

/-- A non-empty raw capture stream collects to a non-empty list. -/
theorem addAll_ne_nil (v : String) (vs : List String) :
    addAll [] (v :: vs) ≠ [] := by
  have h1 : addAll [] (v :: vs) = addAll [v] vs := by
    simp [addAll, addOne]
  have h2 := addAll_length_le [v] vs
  rw [h1]
  intro hc
  rw [hc] at h2
  simp at h2

/-- Once a version is held, further captures of that same version are dropped. -/
theorem addAll_const (v : String) (vs : List String) (h : ∀ x ∈ vs, x = v) :
    addAll [v] vs = [v] := by
  induction vs with
  | nil => rfl
  | cons x xs ih =>
    have hx : x = v := h x (List.mem_cons_self x xs)
    subst hx
    have hstep : addAll [x] (x :: xs) = addAll [x] xs := by
      simp [addAll, addOne]
    rw [hstep]
    exact ih fun y hy => h y (List.mem_cons_of_mem x hy)

/-- Shifting the index stream by one step. -/
theorem range_map_shift (mk : Nat → CommandTemplateData) (n i : Nat) :
    (List.range (n + 1)).map (fun j => mk (i + j)) =
      mk i :: (List.range n).map fun j => mk (i + 1 + j) := by
  rw [List.range_succ_eq_map, List.map_cons, List.map_map]
  simp only [Nat.add_zero]
  congr 1
  apply List.map_congr_left
  intro j _
  simp only [Function.comp_apply]
  congr 1
  omega

/-- When every command succeeds on its record, the loop runs them all in
order and succeeds. -/
theorem execCommands_all_ok (cmds : List SyncCommand) (mk : Nat → CommandTemplateData) (i : Nat)
    (h : ∀ j (hj : j < cmds.length), cmds.get ⟨j, hj⟩ (mk (i + j)) = .ok ()) :
    execCommands cmds mk i = (.ok (), (List.range cmds.length).map fun j => mk (i + j)) := by
  induction cmds generalizing i with
  | nil => simp [execCommands]
  | cons c rest ih =>
    have h0 : c (mk i) = .ok () := by
      have := h 0 (by simp)
      simpa using this
    have hrest : ∀ j (hj : j < rest.length), rest.get ⟨j, hj⟩ (mk (i + 1 + j)) = .ok () := by
      intro j hj
      have := h (j + 1) (by simpa using Nat.succ_lt_succ hj)
      rw [show i + 1 + j = i + (j + 1) by omega]
      simpa using this
    simp only [execCommands, h0]
    rw [ih (i + 1) hrest]
    simp only [List.length_cons]
    rw [range_map_shift]

/-- The first failing command aborts the loop with its error; exactly the
commands up to and including it were run, in order. -/
theorem execCommands_first_err (cmds : List SyncCommand) (mk : Nat → CommandTemplateData)
    (i k : Nat) (hk : k < cmds.length) (e : String)
    (hord : ∀ j (hj : j < cmds.length), j < k → cmds.get ⟨j, hj⟩ (mk (i + j)) = .ok ())
    (hfail : cmds.get ⟨k, hk⟩ (mk (i + k)) = .error e) :
    execCommands cmds mk i = (.error e, (List.range (k + 1)).map fun j => mk (i + j)) := by
  induction cmds generalizing i k with
  | nil => exact absurd hk (by simp)
  | cons c rest ih =>
    cases k with
    | zero =>
      have h0 : c (mk i) = .error e := by simpa using hfail
      simp [execCommands, h0, List.range_succ]
    | succ k =>
      have h0 : c (mk i) = .ok () := by
        have := hord 0 (by simp) (Nat.succ_pos k)
        simpa using this
      have hrest : ∀ j (hj : j < rest.length), j < k → rest.get ⟨j, hj⟩ (mk (i + 1 + j)) = .ok () := by
        intro j hj hjk
        have := hord (j + 1) (by simpa using Nat.succ_lt_succ hj) (Nat.succ_lt_succ hjk)
        rw [show i + 1 + j = i + (j + 1) by omega]
        simpa using this
      have hfail1 : rest.get ⟨k, by simpa using Nat.lt_of_succ_lt_succ hk⟩ (mk (i + 1 + k)) = .error e := by
        rw [show i + 1 + k = i + (k + 1) by omega]
        simpa using hfail
      simp only [execCommands, h0]
      rw [ih (i + 1) k (by simpa using Nat.lt_of_succ_lt_succ hk) hrest hfail1,
        range_map_shift mk (k + 1) i]

/-- `SyncVersion` unfolded past a successful probe, resolution, identity gate
and constraint gate. -/
theorem syncVersion_reach (env : SyncEnv) (vFrom vTo : GoVersion) (pkg : String)
    (hi : env.installed = .ok vFrom)
    (hv : GetRecommendedVersion (lowerString env.cluster) env.doc = .ok vTo)
    (hp : GetRecommendedPackageVersion (lowerString env.cluster) env.doc = .ok pkg)
    (hid : identityStage env = .ok ())
    (hcons : constraintGate env.versionConstraint vTo.core = .ok ()) :
    SyncVersion env =
      if (Compare (some vFrom) (some vTo)).IsSameVersion then (.ok .noChange, [])
      else if env.commands.length = 0 then (.ok .noCommandsConfigured, [])
      else
        match execCommands env.commands
            (mkTemplateData env vFrom vTo pkg env.commands.length) 0 with
        | (.ok _, trace) => (.ok .synced, trace)
        | (.error e, trace) => (.error e, trace) := by
  simp only [SyncVersion, hi, hv, hp, hid, hcons]

/-
  Claim theorems.
-/

/-- `tripleLt` is irreflexive-compatible: strictly smaller triples differ. -/
theorem tripleLt_ne {x y : Nat × Nat × Nat} (h : tripleLt x y) : x ≠ y := by
  intro he
  subst he
  unfold tripleLt at h
  omega

/-- `tripleLt` is asymmetric. -/
theorem tripleLt_asymm {x y : Nat × Nat × Nat} (h1 : tripleLt x y) (h2 : tripleLt y x) : False := by
  unfold tripleLt at h1 h2
  omega

/-- Closed form of `Direction` on two present endpoints, in terms of the
program comparator. -/
theorem direction_formula (a b : GoVersion) :
    (Compare (some a) (some b)).Direction =
      some (if coreCompare a b = Ordering.eq then "no change"
            else if coreCompare b a = Ordering.gt then "upgrade" else "downgrade") := by
  cases h1 : coreCompare a b <;> cases h2 : coreCompare b a <;>
    simp [Compare, VersionDiff.Direction, VersionDiff.IsSameVersion, h1, h2] <;> decide

/-- C1 (amended): for every reported identity and configured key pair, the
identity gate returns the unknown-identity error when the reported key equals
neither configured key; the blocked error when it equals the active key and
`enabled_when_active` is false; proceed when it equals the active key and the
flag is true; and proceed when it equals the passive key, provided it differs
from the active key (when the two configured keys coincide the active-key
branches win). -/
theorem claim_c1_identity_gate (reported active passive : String) (flag : Bool) :
    (reported ≠ active → reported ≠ passive →
      checkIdentityGate reported active passive flag =
        .error (unknownIdentityMsg reported active passive)) ∧
    (reported = active → flag = false →
      checkIdentityGate reported active passive flag = .error syncNotAllowedWhenActiveMsg) ∧
    (reported = active → flag = true →
      checkIdentityGate reported active passive flag = .ok ()) ∧
    (reported = passive → reported ≠ active →
      checkIdentityGate reported active passive flag = .ok ()) := by
  refine ⟨?_, ?_, ?_, ?_⟩
  · intro h1 h2
    simp [checkIdentityGate, isValidatorUnknown, bne_iff_ne, h1, h2]
  · intro h1 h2
    subst h1
    subst h2
    simp [checkIdentityGate, isValidatorUnknown, isValidatorActive, bne_iff_ne]
  · intro h1 h2
    subst h1
    subst h2
    simp [checkIdentityGate, isValidatorUnknown, isValidatorActive, bne_iff_ne]
  · intro h1 h2
    subst h1
    simp [checkIdentityGate, isValidatorUnknown, isValidatorActive, isValidatorPassive,
      bne_iff_ne, h2]

/-- C1 counterexample: with the active and passive keys both configured to the
same value, a reported key equal to the passive key does not proceed when
`enabled_when_active` is false - the active-identity block fires - so the
claim's passive-key clause fails as stated. -/
theorem claim_c1_counterexample :
    ("k" : String) = "k" ∧
    checkIdentityGate "k" "k" "k" false = .error syncNotAllowedWhenActiveMsg ∧
    checkIdentityGate "k" "k" "k" false ≠ .ok () := by
  refine ⟨rfl, by decide, by decide⟩

/-- C1 witness: a passive reported key distinct from the active key proceeds. -/
theorem claim_c1_witness : checkIdentityGate "p" "a" "p" false = .ok () :=
  (claim_c1_identity_gate "p" "a" "p" false).2.2.2 rfl (by decide)

/-- C5 (amended): on two present endpoints, `Direction` is "no change" (with a
space, not the spec's literal "no-change") when the core triples are equal,
"upgrade" when the to-triple is strictly greater in lexicographic core-triple
order, and "downgrade" when it is strictly smaller; in particular comparing a
version with itself yields "no change".  Metadata plays no role. -/
theorem claim_c5_direction (a b : GoVersion) :
    (coreTriple a = coreTriple b →
      (Compare (some a) (some b)).Direction = some "no change") ∧
    (tripleLt (coreTriple a) (coreTriple b) →
      (Compare (some a) (some b)).Direction = some "upgrade") ∧
    (tripleLt (coreTriple b) (coreTriple a) →
      (Compare (some a) (some b)).Direction = some "downgrade") ∧
    (Compare (some a) (some a)).Direction = some "no change" := by
  refine ⟨?_, ?_, ?_, ?_⟩
  · intro h
    rw [direction_formula, if_pos ((coreCompare_eq_iff a b).2 h)]
  · intro h
    have hne : coreCompare a b ≠ Ordering.eq := fun hc =>
      tripleLt_ne h ((coreCompare_eq_iff a b).1 hc)
    have hgt : coreCompare b a = Ordering.gt := (coreCompare_gt_iff b a).2 h
    rw [direction_formula, if_neg hne, if_pos hgt]
  · intro h
    have hne : coreCompare a b ≠ Ordering.eq := fun hc =>
      tripleLt_ne h ((coreCompare_eq_iff a b).1 hc).symm
    have hngt : coreCompare b a ≠ Ordering.gt := fun hc =>
      tripleLt_asymm h ((coreCompare_gt_iff b a).1 hc)
    rw [direction_formula, if_neg hne, if_neg hngt]
  · rw [direction_formula, if_pos ((coreCompare_eq_iff a a).2 rfl)]

/-- C5 counterexample: comparing a version with itself yields the string
"no change", not the claimed literal "no-change". -/
theorem claim_c5_counterexample :
    (Compare (some (GoVersion.mk 1 0 0 "")) (some (GoVersion.mk 1 0 0 ""))).Direction =
      some "no change" ∧
    ("no change" : String) ≠ "no-change" := by
  refine ⟨by decide, by decide⟩

/-- C5 witness: 0.6.9 to 0.7.1 is an upgrade. -/
theorem claim_c5_witness :
    (Compare (some (GoVersion.mk 0 6 9 "")) (some (GoVersion.mk 0 7 1 ""))).Direction =
      some "upgrade" :=
  (claim_c5_direction (GoVersion.mk 0 6 9 "") (GoVersion.mk 0 7 1 "")).2.1 (by decide)

/-- C6: `IsSameVersion` is false whenever either endpoint is absent, and on
two present endpoints it decides equality of the (major, minor, patch) core
triples, pre-release/build metadata ignored. -/
theorem claim_c6_is_same_version (x : Option GoVersion) (a b : GoVersion) :
    (Compare none x).IsSameVersion = false ∧
    (Compare x none).IsSameVersion = false ∧
    (Compare (some a) (some b)).IsSameVersion = decide (coreTriple a = coreTriple b) := by
  refine ⟨?_, ?_, ?_⟩
  · cases x <;> rfl
  · cases x <;> rfl
  · rcases h : decide (coreTriple a = coreTriple b) with _ | _
    · rcases hb : (Compare (some a) (some b)).IsSameVersion with _ | _
      · rfl
      · have := (isSameVersion_iff a b).1 hb
        simp_all
    · exact (isSameVersion_iff a b).2 (by simpa using h)

/-- C2: when the code-like elements of a document carry, in document order,
exactly the install-command captures v0 then v1 with v0 ≠ v1, resolution binds
position 0 to "mainnet-beta" and position 1 to "testnet" - purely by position,
whatever the surrounding text. -/
theorem claim_c2_positional_binding (doc : HtmlNode) (v0 v1 : String)
    (h : rawNode doc = [v0, v1]) (hne : v0 ≠ v1) :
    parseVersionFromHTML "mainnet-beta" doc = .ok v0 ∧
    parseVersionFromHTML "testnet" doc = .ok v1 := by
  have hc : collectNode [] doc = [v0, v1] := by
    rw [collectNode_eq_addAll, h]
    simp only [addAll, List.foldl_cons, List.foldl_nil]
    have h0 : addOne [] v0 = [v0] := by simp [addOne]
    rw [h0]
    have h1 : ¬ [v0].contains v1 = true := by
      simp only [List.contains_cons, List.contains_nil, Bool.or_false, beq_iff_eq]
      exact fun he => hne he.symm
    simp [addOne, h1]
    exact fun he => hne he.symm
  constructor <;> simp [parseVersionFromHTML, matchIndexFor, hc]

/-- C2 witness: the two-block fixture document resolves to 1.2.3-1 for
mainnet-beta and 1.3.0-2 for testnet. -/
def c2doc : HtmlNode :=
  .elem "body" [
    .elem "code" [.text "sudo apt-get install doublezero=1.2.3-1"],
    .elem "code" [.text "sudo apt-get install doublezero=1.3.0-2"]]

theorem claim_c2_witness :
    parseVersionFromHTML "mainnet-beta" c2doc = .ok "1.2.3-1" ∧
    parseVersionFromHTML "testnet" c2doc = .ok "1.3.0-2" :=
  claim_c2_positional_binding c2doc "1.2.3-1" "1.3.0-2" (by decide) (by decide)

/-- C4: a document with no install-command capture in any code-like element
resolves to the "no install pattern found" error for every known cluster; a
document with captures but too few collected entries for the requested
cluster's position resolves to the "version not found for cluster" error
naming the cluster and the number of collected matches. -/
theorem claim_c4_resolver_errors (cluster : String) (doc : HtmlNode) (idx : Nat)
    (h : matchIndexFor cluster = some idx) :
    (rawNode doc = [] → parseVersionFromHTML cluster doc = .error noPatternsMsg) ∧
    (rawNode doc ≠ [] → (collectNode [] doc).length ≤ idx →
      parseVersionFromHTML cluster doc =
        .error (versionNotFoundMsg cluster (collectNode [] doc).length idx)) := by
  constructor
  · intro hraw
    have hc : collectNode [] doc = [] := by
      rw [collectNode_eq_addAll, hraw]
      rfl
    simp [parseVersionFromHTML, hc]
  · intro hraw hle
    have hc : collectNode [] doc ≠ [] := by
      rw [collectNode_eq_addAll]
      cases hr : rawNode doc with
      | nil => exact absurd hr hraw
      | cons v vs => exact addAll_ne_nil v vs
    have hlen : ¬ (collectNode [] doc).length = 0 := by
      simpa [List.length_eq_zero] using hc
    simp [parseVersionFromHTML, h, hlen, hle]

/-- C4 witness: an empty-pattern document yields the no-pattern error, and a
one-block document yields the version-not-found error for testnet. -/
def c4doc : HtmlNode :=
  .elem "body" [.elem "code" [.text "apt-get install doublezero=1.2.3-1"]]

def c4empty : HtmlNode :=
  .elem "body" [.elem "code" [.text "no install commands here"]]

theorem claim_c4_witness :
    parseVersionFromHTML "mainnet-beta" c4empty = .error noPatternsMsg ∧
    parseVersionFromHTML "testnet" c4doc = .error (versionNotFoundMsg "testnet" 1 1) := by
  constructor
  · exact (claim_c4_resolver_errors "mainnet-beta" c4empty 0 (by decide)).1 (by decide)
  · exact ((claim_c4_resolver_errors "testnet" c4doc 1 (by decide)).2 (by decide)
      (by decide)).trans (by decide)

/-- C10: captures are deduplicated by version string before cluster binding:
when every capture in the document carries the same version v, only one
positional entry is collected, so mainnet-beta resolves to v while testnet
fails with the version-not-found error reporting one match - however many
matching code blocks the document holds. -/
theorem claim_c10_dedup (doc : HtmlNode) (v : String)
    (hne : rawNode doc ≠ []) (hall : ∀ x ∈ rawNode doc, x = v) :
    collectNode [] doc = [v] ∧
    parseVersionFromHTML "mainnet-beta" doc = .ok v ∧
    parseVersionFromHTML "testnet" doc = .error (versionNotFoundMsg "testnet" 1 1) := by
  have hc : collectNode [] doc = [v] := by
    rw [collectNode_eq_addAll]
    cases hr : rawNode doc with
    | nil => exact absurd hr hne
    | cons x xs =>
      have hx : x = v := hall x (hr ▸ List.mem_cons_self x xs)
      subst hx
      have h1 : addAll [] (x :: xs) = addAll [x] xs := by
        simp [addAll, addOne]
      rw [h1]
      exact addAll_const x xs fun y hy => hall y (hr ▸ List.mem_cons_of_mem x hy)
  refine ⟨hc, ?_, ?_⟩ <;> simp [parseVersionFromHTML, matchIndexFor, hc]

/-- C10 witness: two identical install blocks collect to a single entry;
mainnet-beta resolves, testnet fails reporting one match. -/
def c10doc : HtmlNode :=
  .elem "body" [
    .elem "code" [.text "apt-get install doublezero=0.7.1-1"],
    .elem "code" [.text "apt-get install doublezero=0.7.1-1"]]

theorem claim_c10_witness :
    collectNode [] c10doc = ["0.7.1-1"] ∧
    parseVersionFromHTML "mainnet-beta" c10doc = .ok "0.7.1-1" ∧
    parseVersionFromHTML "testnet" c10doc = .error (versionNotFoundMsg "testnet" 1 1) :=
  claim_c10_dedup c10doc "0.7.1-1" (by decide) (by decide)

/-- C7: every package-version string produced by resolution is processed by
splitting on "-", keeping the first segment and parsing it as a semantic
version; an unparseable first segment is a hard error, and in particular
"0.7.1-1" yields 0.7.1. -/
theorem claim_c7_semver_resolution (cluster : String) (doc : HtmlNode) (pkg : String)
    (h : parseVersionFromHTML cluster doc = .ok pkg) :
    (GetRecommendedVersion cluster doc =
      match parseGoVersion (String.mk ((splitOnChar '-' pkg.data).headD [])) with
      | some v => Except.ok v
      | none => Except.error (versionParseFailedMsg
          (String.mk ((splitOnChar '-' pkg.data).headD [])) pkg)) ∧
    (pkg = "0.7.1-1" →
      GetRecommendedVersion cluster doc = .ok (GoVersion.mk 0 7 1 "")) := by
  have hf : fetchVersionFromDocs cluster doc = .ok pkg := by
    simp [fetchVersionFromDocs, h]
  constructor
  · simp only [GetRecommendedVersion, hf]
    cases parseGoVersion (String.mk ((splitOnChar '-' pkg.data).headD [])) <;> rfl
  · intro hp
    subst hp
    simp only [GetRecommendedVersion, hf]
    decide

/-- C7 witness: a document resolving to package version 0.7.1-1 yields the
semantic version 0.7.1. -/
def c7doc : HtmlNode :=
  .elem "body" [.elem "code" [.text "apt-get install doublezero=0.7.1-1"]]

theorem claim_c7_witness :
    GetRecommendedVersion "mainnet-beta" c7doc = .ok (GoVersion.mk 0 7 1 "") :=
  (claim_c7_semver_resolution "mainnet-beta" c7doc "0.7.1-1" (by decide)).2 rfl

/-- Distinct core triples are never "same version". -/
theorem isSameVersion_false_of_ne {a b : GoVersion} (h : coreTriple a ≠ coreTriple b) :
    (Compare (some a) (some b)).IsSameVersion = false := by
  cases hb : (Compare (some a) (some b)).IsSameVersion with
  | false => rfl
  | true => exact absurd ((isSameVersion_iff a b).1 hb) h

/-- The spec's example constraint `">=0.6.9, <0.7.2"` in parsed form. -/
def exampleConstraint : List VersionConstraint :=
  [{ op := .ge, version := { major := 0, minor := 6, patch := 9 } },
   { op := .lt, version := { major := 0, minor := 7, patch := 2 } }]

/-- C3: with a configured constraint, a cycle whose resolved target core
version violates it fails with the constraint-violation error having executed
no commands; the parsed `">=0.6.9, <0.7.2"` accepts 0.7.1 and rejects 0.7.2;
with no configured constraint the gate always passes. -/
theorem claim_c3_constraint_gate (env : SyncEnv) (cs : List VersionConstraint)
    (vFrom vTo : GoVersion) (pkg : String)
    (hcfg : env.versionConstraint = some cs)
    (hi : env.installed = .ok vFrom)
    (hv : GetRecommendedVersion (lowerString env.cluster) env.doc = .ok vTo)
    (hp : GetRecommendedPackageVersion (lowerString env.cluster) env.doc = .ok pkg)
    (hid : identityStage env = .ok ())
    (hviol : checkConstraints cs vTo.core = false) :
    SyncVersion env = (.error (constraintViolationMsg vTo.core cs), []) ∧
    (∀ w, constraintGate none w = .ok ()) ∧
    checkConstraints exampleConstraint (GoVersion.mk 0 7 1 "") = true ∧
    checkConstraints exampleConstraint (GoVersion.mk 0 7 2 "") = false := by
  refine ⟨?_, fun w => rfl, by decide, by decide⟩
  have hgate : constraintGate env.versionConstraint vTo.core =
      .error (constraintViolationMsg vTo.core cs) := by
    rw [hcfg]
    simp [constraintGate, hviol]
  simp only [SyncVersion, hi, hv, hp, hid, hgate]

/-- C3 witness: with the example constraint configured and the docs resolving
to 0.7.2-1, the cycle fails on the constraint and runs nothing. -/
def c3doc : HtmlNode :=
  .elem "body" [.elem "code" [.text "apt-get install doublezero=0.7.2-1"]]

def c3env : SyncEnv :=
  { cluster := "mainnet-beta"
    installed := .ok { major := 0, minor := 6, patch := 9 }
    doc := c3doc
    validatorConfigured := false
    identityResult := .ok ""
    activeIdentityPK := ""
    passiveIdentityPK := ""
    enabledWhenActive := false
    versionConstraint := some exampleConstraint
    commands := [fun _ => .ok ()] }

theorem claim_c3_witness :
    SyncVersion c3env =
      (.error (constraintViolationMsg (GoVersion.mk 0 7 2 "").core exampleConstraint), []) :=
  (claim_c3_constraint_gate c3env exampleConstraint
    (GoVersion.mk 0 6 9 "") (GoVersion.mk 0 7 2 "") "0.7.2-1"
    rfl rfl (by decide) (by decide) rfl (by decide)).1

/-- C8: a cycle that reaches the diff stage with equal installed and
recommended core versions ends successfully with no commands run; a cycle
with differing versions but zero configured commands also ends successfully
(the warning-only branch) with no commands run. -/
theorem claim_c8_terminal_success (env : SyncEnv) (vFrom vTo : GoVersion) (pkg : String)
    (hi : env.installed = .ok vFrom)
    (hv : GetRecommendedVersion (lowerString env.cluster) env.doc = .ok vTo)
    (hp : GetRecommendedPackageVersion (lowerString env.cluster) env.doc = .ok pkg)
    (hid : identityStage env = .ok ())
    (hcons : constraintGate env.versionConstraint vTo.core = .ok ()) :
    (coreTriple vFrom = coreTriple vTo → SyncVersion env = (.ok .noChange, [])) ∧
    (coreTriple vFrom ≠ coreTriple vTo → env.commands = [] →
      SyncVersion env = (.ok .noCommandsConfigured, [])) := by
  have hr := syncVersion_reach env vFrom vTo pkg hi hv hp hid hcons
  constructor
  · intro h
    rw [hr, if_pos ((isSameVersion_iff vFrom vTo).2 h)]
  · intro h hcmd
    rw [hr, if_neg (by simp [isSameVersion_false_of_ne h]), if_pos (by rw [hcmd]; rfl)]

/-- C8 witness: equal versions end with no-change; differing versions with no
commands end with the warning branch; both run zero commands. -/
def c8doc : HtmlNode :=
  .elem "body" [.elem "code" [.text "apt-get install doublezero=0.7.1-1"]]

def c8envSame : SyncEnv :=
  { cluster := "mainnet-beta"
    installed := .ok { major := 0, minor := 7, patch := 1 }
    doc := c8doc
    validatorConfigured := false
    identityResult := .ok ""
    activeIdentityPK := ""
    passiveIdentityPK := ""
    enabledWhenActive := false
    versionConstraint := none
    commands := [fun _ => .ok ()] }

def c8envNoCmds : SyncEnv :=
  { c8envSame with installed := .ok { major := 0, minor := 6, patch := 9 }, commands := [] }

theorem claim_c8_witness :
    SyncVersion c8envSame = (.ok .noChange, []) ∧
    SyncVersion c8envNoCmds = (.ok .noCommandsConfigured, []) := by
  constructor
  · exact (claim_c8_terminal_success c8envSame
      (GoVersion.mk 0 7 1 "") (GoVersion.mk 0 7 1 "") "0.7.1-1"
      rfl (by decide) (by decide) rfl rfl).1 (by decide)
  · exact (claim_c8_terminal_success c8envNoCmds
      (GoVersion.mk 0 6 9 "") (GoVersion.mk 0 7 1 "") "0.7.1-1"
      rfl (by decide) (by decide) rfl rfl).2 (by decide) rfl

/-- C9: when a cycle proceeds to execution with at least one configured
command, the commands run in declared order, command i receiving the record
{ClusterName, CommandIndex = i, CommandsCount = N, VersionFrom = installed
core, VersionTo = recommended core, PackageVersionTo = resolved package
string}; if every command succeeds the cycle succeeds having run them all,
and the first command returning an error aborts the remainder with that
error. -/
theorem claim_c9_command_execution (env : SyncEnv) (vFrom vTo : GoVersion) (pkg : String)
    (hi : env.installed = .ok vFrom)
    (hv : GetRecommendedVersion (lowerString env.cluster) env.doc = .ok vTo)
    (hp : GetRecommendedPackageVersion (lowerString env.cluster) env.doc = .ok pkg)
    (hid : identityStage env = .ok ())
    (hcons : constraintGate env.versionConstraint vTo.core = .ok ())
    (hdiff : coreTriple vFrom ≠ coreTriple vTo)
    (hcmds : env.commands ≠ []) :
    ((∀ j (hj : j < env.commands.length),
        env.commands.get ⟨j, hj⟩
          (mkTemplateData env vFrom vTo pkg env.commands.length j) = .ok ()) →
      SyncVersion env = (.ok .synced,
        (List.range env.commands.length).map
          (mkTemplateData env vFrom vTo pkg env.commands.length))) ∧
    (∀ k (hk : k < env.commands.length) (e : String),
      (∀ j (hj : j < env.commands.length), j < k →
        env.commands.get ⟨j, hj⟩
          (mkTemplateData env vFrom vTo pkg env.commands.length j) = .ok ()) →
      env.commands.get ⟨k, hk⟩
        (mkTemplateData env vFrom vTo pkg env.commands.length k) = .error e →
      SyncVersion env = (.error e,
        (List.range (k + 1)).map (mkTemplateData env vFrom vTo pkg env.commands.length))) := by
  have hr := syncVersion_reach env vFrom vTo pkg hi hv hp hid hcons
  have hlen : ¬ env.commands.length = 0 := by
    simpa [List.length_eq_zero] using hcmds
  rw [if_neg (by simp [isSameVersion_false_of_ne hdiff]), if_neg hlen] at hr
  constructor
  · intro hok
    have he := execCommands_all_ok env.commands
      (mkTemplateData env vFrom vTo pkg env.commands.length) 0
      (fun j hj => by simpa using hok j hj)
    rw [hr, he]
    simp
  · intro k hk e hord hfail
    have he := execCommands_first_err env.commands
      (mkTemplateData env vFrom vTo pkg env.commands.length) 0 k hk e
      (fun j hj hjk => by simpa using hord j hj hjk)
      (by simpa using hfail)
    rw [hr, he]
    simp

/-- C9 witness: two succeeding commands run in order with the populated
records; a failing second command aborts before the third with its error. -/
def c9doc : HtmlNode :=
  .elem "body" [.elem "code" [.text "apt-get install doublezero=0.7.1-1"]]

def c9okCmd : SyncCommand := fun _ => .ok ()

def c9failCmd : SyncCommand := fun _ => .error "command failed"

def c9envOk : SyncEnv :=
  { cluster := "mainnet-beta"
    installed := .ok { major := 0, minor := 6, patch := 9 }
    doc := c9doc
    validatorConfigured := false
    identityResult := .ok ""
    activeIdentityPK := ""
    passiveIdentityPK := ""
    enabledWhenActive := false
    versionConstraint := none
    commands := [c9okCmd, c9okCmd] }

def c9envFail : SyncEnv :=
  { c9envOk with commands := [c9okCmd, c9failCmd, c9okCmd] }

theorem claim_c9_witness :
    SyncVersion c9envOk = (.ok .synced,
      (List.range 2).map
        (mkTemplateData c9envOk (GoVersion.mk 0 6 9 "") (GoVersion.mk 0 7 1 "") "0.7.1-1" 2)) ∧
    SyncVersion c9envFail = (.error "command failed",
      (List.range 2).map
        (mkTemplateData c9envFail (GoVersion.mk 0 6 9 "") (GoVersion.mk 0 7 1 "") "0.7.1-1" 3)) := by
  constructor
  · exact (claim_c9_command_execution c9envOk
      (GoVersion.mk 0 6 9 "") (GoVersion.mk 0 7 1 "") "0.7.1-1"
      rfl (by decide) (by decide) rfl rfl (by decide) (List.cons_ne_nil _ _)).1
      (fun j hj => by
        match j with
        | 0 => rfl
        | 1 => rfl
        | n + 2 => exact absurd hj (by show ¬ n + 2 < 2; omega))
  · exact (claim_c9_command_execution c9envFail
      (GoVersion.mk 0 6 9 "") (GoVersion.mk 0 7 1 "") "0.7.1-1"
      rfl (by decide) (by decide) rfl rfl (by decide) (List.cons_ne_nil _ _)).2
      1 (by show 1 < 3; omega) "command failed"
      (fun j hj hjk => by
        match j with
        | 0 => rfl
        | n + 1 => exact absurd hjk (by omega))
      rfl

end DZVS
